import Mathlib

/-!
Shallow embedding of `cardano_x_leads_to_sheets.py` (lead normalization and
spreadsheet append logic) and proofs about it.

Modelling conventions:
* Python strings are `String` / `List Char`; character classes (`\d`, `\s`,
  `re.IGNORECASE`) are modelled over ASCII.
* Python `float` arithmetic on the parsed follower token is modelled exactly:
  the token's value is the nonnegative decimal `mant / 10 ^ frac`, and the
  `K`/`M` scaling and final rounding are exact on that representation; the
  inputs exercised by the properties are small enough that IEEE double
  rounding and overflow do not change any stated result.
* Python exceptions are modelled by `Except PyErr`.
-/

inductive PyErr where
  | valueError
  | typeError
  | attributeError
deriving DecidableEq

deriving instance DecidableEq for Except

/-- ASCII whitespace stripped by `str.strip()` and matched by `\s`. -/
def isPySpace (c : Char) : Bool :=
  c = ' ' || c = '\t' || c = '\n' || c = '\r' || c = '\x0b' || c = '\x0c'

/-- `str.strip()` on a character list. -/
def pyStrip (cs : List Char) : List Char :=
  ((cs.dropWhile isPySpace).reverse.dropWhile isPySpace).reverse

/-- Characters matched by the class `[\d,.]` in the follower regex. -/
def isNumTokChar (c : Char) : Bool :=
  c.isDigit || c = ',' || c = '.'

/-- Suffix characters matched by `[KkMm]`. -/
def isKMChar (c : Char) : Bool :=
  c = 'K' || c = 'k' || c = 'M' || c = 'm'

/-- `re.search(r'([\d,.]+)\s*([KkMm])?', text)`: leftmost match; group 1 is the
maximal run of `[\d,.]` characters starting at the first such character, group 2
is an optional `K`/`M` suffix after optional whitespace. -/
def findNumToken : List Char → Option (List Char × Option Char)
  | [] => none
  | c :: rest =>
    if isNumTokChar c then
      let tok := c :: rest.takeWhile isNumTokChar
      let after := (rest.dropWhile isNumTokChar).dropWhile isPySpace
      let suffix := match after with
        | d :: _ => if isKMChar d then some d else none
        | [] => none
      some (tok, suffix)
    else
      findNumToken rest

/-- Numeric value of a list of decimal digit characters (`int(digits)`). -/
def natOfDigits (cs : List Char) : Nat :=
  cs.foldl (fun a c => a * 10 + (c.toNat - '0'.toNat)) 0

/-- Whether Python `float(s)` accepts `s`, for `s` made of digits and dots:
at least one digit and at most one dot. -/
def pyFloatValid (cs : List Char) : Bool :=
  cs.any Char.isDigit && (cs.filter (· = '.')).length ≤ 1

/-- Exact value of Python `float(s)` for a valid `s` made of digits and dots,
kept as the decimal `mant / 10 ^ frac`. The matched token contains no sign,
so the value is a nonnegative rational. -/
structure PyDecimal where
  mant : Nat
  frac : Nat
deriving DecidableEq

/-- `float(num_str)` for a valid token of digits and dots. -/
def pyFloatOf (cs : List Char) : PyDecimal :=
  ⟨natOfDigits (cs.filter Char.isDigit), ((cs.dropWhile (· ≠ '.')).drop 1).length⟩

/-- Multiplication by an exact integer scale (`num *= 1_000`, `num *= 1_000_000`).
Exact, so it commutes with the decimal representation. -/
def PyDecimal.scale (x : PyDecimal) (k : Nat) : PyDecimal :=
  ⟨x.mant * k, x.frac⟩

/-- Python `round()` of the exact value `mant / 10 ^ frac` to an integer:
round half to even; `int()` is then the identity. -/
def pyRound (x : PyDecimal) : Nat :=
  let D := 10 ^ x.frac
  let f := x.mant / D
  let r := x.mant % D
  if 2 * r < D then f
  else if D < 2 * r then f + 1
  else if f % 2 = 0 then f else f + 1

/-- The suffix scaling of lines 77-82: `K` multiplies by 1000, `M` by
1000000, no suffix leaves the value unchanged. -/
def applySuffix (num : PyDecimal) : Option Char → PyDecimal
  | some c => if c.toLower = 'k' then num.scale 1000 else num.scale 1000000
  | none => num

/-- Body of `parse_followers` after the `None` check, on the string `str(text)`. -/
def parseFollowersStr (s : String) : Except PyErr (Option Int) :=
  match findNumToken (pyStrip s.data) with
  | none =>
    -- `re.sub(r'\D', '', text)` then `int(digits) if digits else None`;
    -- `int` of a nonempty digit string cannot raise, so the except-arm is dead.
    if ((pyStrip s.data).filter Char.isDigit).isEmpty then .ok none
    else .ok (some (natOfDigits ((pyStrip s.data).filter Char.isDigit)))
  | some (numTok, suffix) =>
    if pyFloatValid (numTok.filter (· ≠ ',')) then
      .ok (some (pyRound (applySuffix (pyFloatOf (numTok.filter (· ≠ ','))) suffix)))
    else
      -- `float(num_str)` raises ValueError (no digit, or more than one dot);
      -- the call is not wrapped in any try/except.
      .error .valueError

/-- `parse_followers(text: Optional[str]) -> Optional[int]`, lines 63-83. -/
def parse_followers (text : Option String) : Except PyErr (Option Int) :=
  match text with
  | none => .ok none
  | some s => parseFollowersStr s

/-- Characters allowed in the username group: the class `[^\/\?\#]`. -/
def notSegStop (c : Char) : Bool :=
  !(c = '/' || c = '?' || c = '#')

/-- The literal part `x\.com\/` of the username regex, lowercased. -/
def xcomMarker : List Char := ['x', '.', 'c', 'o', 'm', '/']

/-- `re.search(r'x\.com\/([^\/\?\#]+)', url, re.IGNORECASE)`: try each start
position left to right; at a position the marker must match case-insensitively
and the following run of non-`/?#` characters must be nonempty (`+`); the
greedy group is that maximal run. Returns `[]` when there is no match. -/
def scanXcom : List Char → List Char
  | [] => []
  | c :: rest =>
    if (List.take 6 (c :: rest)).map Char.toLower = xcomMarker then
      if ((List.drop 6 (c :: rest)).takeWhile notSegStop).isEmpty then scanXcom rest
      else (List.drop 6 (c :: rest)).takeWhile notSegStop
    else scanXcom rest

/-- `extract_username_from_url(url: str) -> str`, lines 85-89. -/
def extract_username_from_url (url : String) : String :=
  if url = "" then "" else String.mk (scanXcom url.data)

/-- JSON-shaped Python values flowing through `parse_apify_items` (the payload
comes from `resp.json()`). JSON numbers that are not integers are not
modelled; no property depends on them. -/
inductive JValue where
  | null
  | bool (b : Bool)
  | num (n : Int)
  | str (s : String)
  | arr (elems : List JValue)
  | obj (fields : List (String × JValue))

/-- A single-quote character as a string (for Python `repr` of strings). -/
def squote : String := String.mk ['\'']

/-- Escaping used by Python `repr` on a string body. Simplified to the common
cases (backslash, quote, newline, tab, carriage return); non-printable
`\xhh` escaping and the double-quote variant are not modelled, and no
property depends on them. -/
def reprEscape : List Char → String
  | [] => ""
  | c :: cs =>
    (if c = '\\' then "\\\\"
     else if c = '\'' then "\\" ++ squote
     else if c = '\n' then "\\n"
     else if c = '\t' then "\\t"
     else if c = '\r' then "\\r"
     else String.mk [c]) ++ reprEscape cs

mutual

/-- Python `repr` of a value (used by `str` on lists and dicts). -/
def pyRepr : JValue → String
  | .null => "None"
  | .bool b => if b then "True" else "False"
  | .num n => toString n
  | .str s => squote ++ reprEscape s.data ++ squote
  | .arr xs => "[" ++ String.intercalate ", " (pyReprList xs) ++ "]"
  | .obj kvs => "\x7b" ++ String.intercalate ", " (pyReprObj kvs) ++ "\x7d"

def pyReprList : List JValue → List String
  | [] => []
  | v :: vs => pyRepr v :: pyReprList vs

def pyReprObj : List (String × JValue) → List String
  | [] => []
  | (k, v) :: kvs => (squote ++ reprEscape k.data ++ squote ++ ": " ++ pyRepr v) :: pyReprObj kvs

end

/-- Python `str()` of a value: identity on strings, `repr`-like otherwise. -/
def pyStr (v : JValue) : String :=
  match v with
  | .str s => s
  | v => pyRepr v

/-- Python truthiness of a value. -/
def pyTruthy : JValue → Bool
  | .null => false
  | .bool b => b
  | .num n => n != 0
  | .str s => s != ""
  | .arr xs => !xs.isEmpty
  | .obj kvs => !kvs.isEmpty

/-- Dictionary lookup (`k in d`, `d[k]`, `d.get(k)` with present key). -/
def dictGet : List (String × JValue) → String → Option JValue
  | [], _ => none
  | (k, v) :: kvs, key => if k = key then some v else dictGet kvs key

/-- `d.get(k)`: `None` when the key is missing. A JSON `null` value and a
missing key both surface as Python `None` downstream. -/
def dictGetN (fields : List (String × JValue)) (key : String) : JValue :=
  (dictGet fields key).getD .null

/-- Python `a or b`. -/
def pyOr (a b : JValue) : JValue :=
  if pyTruthy a then a else b

/-- The normalized lead dict built at lines 149-155. -/
structure Lead where
  Name : JValue
  Username : String
  Handle : JValue
  Description : JValue
  Followers : Option Int

/-- `extract_username_from_url(url)` as called with an arbitrary payload value:
falsy values short-circuit to `""`; `re.search` on a truthy non-string raises
`TypeError`. -/
def extract_username_j (url : JValue) : Except PyErr String :=
  if pyTruthy url then
    match url with
    | .str s => .ok (extract_username_from_url s)
    | _ => .error .typeError
  else .ok ""

/-- `parse_followers(followers_raw)` as called with an arbitrary payload value:
the `text is None` check, then `str(text)`. -/
def parse_followers_j (v : JValue) : Except PyErr (Option Int) :=
  match v with
  | .null => .ok none
  | v => parseFollowersStr (pyStr v)

/-- The per-entry body of the inner loop of `parse_apify_items`
(lines 142-155). `r.get(...)` on a non-dict entry raises `AttributeError`. -/
def leadOfEntry (r : JValue) : Except PyErr Lead :=
  match r with
  | .obj fields =>
    let name := pyOr (dictGetN fields "title") (.str "")
    let url := pyOr (dictGetN fields "url") (pyOr (dictGetN fields "link") (.str ""))
    match extract_username_j url with
    | .error e => .error e
    | .ok username =>
      let description :=
        pyOr (dictGetN fields "description") (pyOr (dictGetN fields "snippet") (.str ""))
      let followersRaw :=
        pyOr (dictGetN fields "followersAmount") (pyOr (dictGetN fields "followers") (.str ""))
      match parse_followers_j followersRaw with
      | .error e => .error e
      | .ok followers => .ok ⟨name, username, url, description, followers⟩
  | _ => .error .attributeError

/-- `item.get("json") if isinstance(item, dict) and "json" in item else item`. -/
def unwrapItem (item : JValue) : JValue :=
  match item with
  | .obj fields =>
    match dictGet fields "json" with
    | some v => v
    | none => item
  | item => item

/-- The `if`/`elif` probe of lines 136-139: the `organicResults` value if
present as a list, else the `results` value if present as a list. -/
def resultsListOf (fields : List (String × JValue)) : Option (List JValue) :=
  match dictGet fields "organicResults" with
  | some (.arr xs) => some xs
  | _ =>
    match dictGet fields "results" with
    | some (.arr ys) => some ys
    | _ => none

/-- The `organic` list selected at lines 134-139: the recognized results list
of the unwrapped payload, defaulting to empty. -/
def getOrganic (item : JValue) : List JValue :=
  match unwrapItem item with
  | .obj fields => (resultsListOf fields).getD []
  | _ => []

/-- Map `leadOfEntry` over the organic entries, stopping at the first raised
exception (the loop body is not wrapped in any try/except). -/
def mapLeads : List JValue → Except PyErr (List Lead)
  | [] => .ok []
  | r :: rs =>
    match leadOfEntry r with
    | .error e => .error e
    | .ok l =>
      match mapLeads rs with
      | .error e => .error e
      | .ok ls => .ok (l :: ls)

/-- `parse_apify_items(items)`, lines 126-156. The `if not organic: continue`
is subsumed: an empty organic list contributes no leads. -/
def parse_apify_items : List JValue → Except PyErr (List Lead)
  | [] => .ok []
  | item :: rest =>
    match mapLeads (getOrganic item) with
    | .error e => .error e
    | .ok ls =>
      match parse_apify_items rest with
      | .error e => .error e
      | .ok rs => .ok (ls ++ rs)

/-- The claim's hypothesis on a container: its (possibly `json`-wrapped)
payload has an `organicResults` list or a `results` list. -/
def containerHasResults (c : JValue) : Bool :=
  match unwrapItem c with
  | .obj fields => (resultsListOf fields).isSome
  | _ => false

/-- The fixed header row, line 182. -/
def HEADERS : List String :=
  ["Timestamp", "Topic", "Name", "Username", "Handle", "Description", "Followers"]

/-- A worksheet: its first row of cells and the remaining grid. Only the first
row is read or written by `ensure_sheet_tab`. -/
structure Worksheet where
  row1 : List String
  rest : List (List String)
deriving DecidableEq

/-- `ws.row_values(1)`: the first row with trailing empty cells trimmed
(gspread returns values up to the last nonempty cell). -/
def row_values1 (ws : Worksheet) : List String :=
  (ws.row1.reverse.dropWhile (· = "")).reverse

/-- `ws.update("A1:G1", [headers])`: overwrite cells A1..G1 with the header;
cells beyond the seventh column are untouched. -/
def updateHeaderRange (ws : Worksheet) : Worksheet :=
  { ws with row1 := HEADERS ++ ws.row1.drop HEADERS.length }

/-- A spreadsheet: association of tab names to worksheets. -/
abbrev Spreadsheet := List (String × Worksheet)

def lookupTab : Spreadsheet → String → Option Worksheet
  | [], _ => none
  | (n, w) :: s, tab => if n = tab then some w else lookupTab s tab

/-- Record a tab's new worksheet state; `lookupTab` finds the latest entry. -/
def setTab (sheet : Spreadsheet) (tab : String) (ws : Worksheet) : Spreadsheet :=
  (tab, ws) :: sheet

/-- `sheet.worksheet(tab_name)` with the `WorksheetNotFound` handler of lines
177-180: the existing tab, or a freshly created empty one. -/
def getTab (sheet : Spreadsheet) (tab : String) : Worksheet :=
  match lookupTab sheet tab with
  | some w => w
  | none => ⟨[], []⟩

/-- `ensure_sheet_tab(sheet, tab_name)`, lines 172-186: fetch the tab (create
an empty one if missing), then overwrite A1:G1 with the header unless the
first row (`not existing or existing[:len(headers)] != headers`) already
carries it. The boolean records whether the header write was performed. -/
def ensure_sheet_tab (sheet : Spreadsheet) (tab : String) : Worksheet × Bool :=
  if row_values1 (getTab sheet tab) = [] ∨
      (row_values1 (getTab sheet tab)).take HEADERS.length ≠ HEADERS then
    (updateHeaderRange (getTab sheet tab), true)
  else
    (getTab sheet tab, false)

/-- The fields of `datetime.utcnow()` used by `isoformat`. -/
structure PyDateTime where
  year : Nat
  month : Nat
  day : Nat
  hour : Nat
  minute : Nat
  second : Nat
deriving DecidableEq

/-- Field ranges guaranteed by `datetime` (MINYEAR..MAXYEAR and calendar/clock
bounds). -/
def validDT (dt : PyDateTime) : Prop :=
  1 ≤ dt.year ∧ dt.year ≤ 9999 ∧ 1 ≤ dt.month ∧ dt.month ≤ 12 ∧
    1 ≤ dt.day ∧ dt.day ≤ 31 ∧ dt.hour ≤ 23 ∧ dt.minute ≤ 59 ∧ dt.second ≤ 59

instance (dt : PyDateTime) : Decidable (validDT dt) := by
  unfold validDT; infer_instance

/-- Decimal digits, most significant first; fuel-based so that closed terms
reduce. `n + 1` units of fuel always suffice since `n` has at most `n + 1`
decimal digits. -/
def decDigitsAux : Nat → Nat → List Char
  | 0, _ => []
  | fuel + 1, n =>
    if n < 10 then [Char.ofNat ('0'.toNat + n)]
    else decDigitsAux fuel (n / 10) ++ [Char.ofNat ('0'.toNat + n % 10)]

/-- Decimal digits of a natural number, most significant first. -/
def decDigits (n : Nat) : List Char :=
  decDigitsAux (n + 1) n

/-- Zero-padding to a fixed width (`%04d`, `%02d` in `isoformat`). -/
def padDec (w n : Nat) : List Char :=
  let ds := decDigits n
  List.replicate (w - ds.length) '0' ++ ds

/-- `datetime.isoformat(sep=" ", timespec="seconds")`:
`YYYY-MM-DD HH:MM:SS`. -/
def isoformatSeconds (dt : PyDateTime) : List Char :=
  padDec 4 dt.year ++ '-' :: padDec 2 dt.month ++ '-' :: padDec 2 dt.day ++
    ' ' :: padDec 2 dt.hour ++ ':' :: padDec 2 dt.minute ++ ':' :: padDec 2 dt.second

/-- The batch timestamp of line 195: `isoformat(...) + " UTC"`. -/
def utcnowStr (dt : PyDateTime) : String :=
  String.mk (isoformatSeconds dt) ++ " UTC"

/-- `str(lead.get("Followers", "") or "")`: `None` and `0` are falsy, so both
serialize as the empty string; any other integer as its decimal string. -/
def followersCell (f : Option Int) : String :=
  match f with
  | none => ""
  | some n => if n = 0 then "" else toString n

/-- One appended row, lines 198-206:
`[now, topic, Name, Username, Handle, Description, str(Followers or "")]`. -/
def rowOfLead (now topic : String) (l : Lead) : List JValue :=
  [.str now, .str topic, l.Name, .str l.Username, l.Handle, l.Description,
    .str (followersCell l.Followers)]

/-- `append_leads_to_sheet(ws, topic, leads)`, lines 188-210. The first
component is the return value; the second is the payload of the single
`ws.append_rows` call, or `none` when that call is never issued (empty
batch). The timestamp source `datetime.utcnow()` is the `dt` argument,
captured once per call. -/
def append_leads_to_sheet (dt : PyDateTime) (topic : String) (leads : List Lead) :
    Nat × Option (List (List JValue)) :=
  if leads.isEmpty then (0, none)
  else
    let now := utcnowStr dt
    let rows := leads.map (rowOfLead now topic)
    (rows.length, some rows)

/-- The spec's timestamp shape `YYYY-MM-DD HH:MM:SS UTC`: four digits, dash,
two digits, dash, two digits, space, two digits, colon, two digits, colon, two
digits, then the literal suffix. Stated from the spec's words, to be proved of
the string the code builds. -/
def tsFormat (s : String) : Prop :=
  ∃ y mo d h mi sec : List Char,
    s.data = y ++ '-' :: mo ++ '-' :: d ++ ' ' :: h ++ ':' :: mi ++ ':' :: sec
      ++ [' ', 'U', 'T', 'C'] ∧
    y.length = 4 ∧ mo.length = 2 ∧ d.length = 2 ∧ h.length = 2 ∧
    mi.length = 2 ∧ sec.length = 2 ∧
    ∀ c ∈ y ++ mo ++ d ++ h ++ mi ++ sec, c.isDigit

/-- The amended serialization of the Followers column, stated from the amended
claim's words: decimal string when present and nonzero, empty when absent or
zero. -/
def followersCellSpec (f : Option Int) : String :=
  match f with
  | some n => if n ≠ 0 then toString n else ""
  | none => ""

/-- The position of the leftmost match of the username regex: the marker
`x.com/` matches case-insensitively at `i`. -/
def markerAt (cs : List Char) (i : Nat) : Prop :=
  ((cs.drop i).take 6).map Char.toLower = xcomMarker

/-- The greedy group at `i`: the maximal run of non-`/?#` characters after the
marker. -/
def segAt (cs : List Char) (i : Nat) : List Char :=
  (cs.drop (i + 6)).takeWhile notSegStop

/-- The regex has a match starting at `i`: the marker matches and the group
(`+`, at least one character) is nonempty. -/
def hitAt (cs : List Char) (i : Nat) : Prop :=
  markerAt cs i ∧ segAt cs i ≠ []

instance (cs : List Char) (i : Nat) : Decidable (hitAt cs i) := by
  unfold hitAt markerAt; infer_instance

/-- Followers serialization of the code and of the amended claim agree. -/
theorem followersCell_eq_spec (f : Option Int) : followersCell f = followersCellSpec f := by
  match f with
  | none => rfl
  | some n =>
    by_cases h : n = 0 <;> simp [followersCell, followersCellSpec, h]

/-- C3: `parse_followers` returns 12300 on `"12.3K"`, 1200000 on `"1.2M"`,
1234 on `"1234"`, and the absent result on `""`, `None` and `"abc"`. -/
theorem parse_followers_examples :
    parse_followers (some "12.3K") = .ok (some 12300) ∧
    parse_followers (some "1.2M") = .ok (some 1200000) ∧
    parse_followers (some "1234") = .ok (some 1234) ∧
    parse_followers (some "") = .ok none ∧
    parse_followers none = .ok none ∧
    parse_followers (some "abc") = .ok none := by
  refine ⟨?_, ?_, ?_, ?_, ?_, ?_⟩ <;> decide

/-- C1: the claim that every failure path of `parse_followers` yields `None`
fails on the code: when the matched `[\d,.]` token contains no digit (e.g.
input `","` or `"..."`), `float(num_str)` raises `ValueError`, and the call is
not wrapped in any try/except. -/
theorem parse_followers_raises_on_separators :
    parse_followers (some ",") = .error .valueError ∧
    parse_followers (some "...") = .error .valueError ∧
    parse_followers (some "1.2.3") = .error .valueError := by
  refine ⟨?_, ?_, ?_⟩ <;> decide

/-- C10: the username regex matches `x.com/` case-insensitively anywhere in
the string, not only at the host position: a URL whose host is `fakex.com`
still yields a username. -/
theorem extract_username_matches_anywhere :
    extract_username_from_url "https://fakex.com/user" = "user" ∧
    extract_username_from_url "HTTPS://X.COM/Someuser" = "Someuser" := by
  refine ⟨?_, ?_⟩ <;> decide

/-- C6: an empty batch returns 0 and the `append_rows` call on the worksheet
backend is never issued. -/
theorem append_leads_empty_no_write (dt : PyDateTime) (topic : String) :
    append_leads_to_sheet dt topic [] = (0, none) := rfl

/-- C2 counterexample: a present follower count of 0 serializes as the empty
string, not as the decimal string `"0"`, because `0` is falsy in
`str(lead.get("Followers", "") or "")`. -/
theorem followers_zero_cell_counterexample :
    (append_leads_to_sheet ⟨2025, 1, 2, 3, 4, 5⟩ "t"
        [⟨.str "", "", .str "", .str "", some 0⟩]).2 =
      some [[.str "2025-01-02 03:04:05 UTC", .str "t", .str "", .str "", .str "",
        .str "", .str ""]] ∧
    ("" : String) ≠ toString (0 : Int) := by
  refine ⟨rfl, by decide⟩

/-- C2 (amended): in a non-empty batch, the Followers cell of each produced
row is the decimal string of the lead's followers value when that value is
present and nonzero, and the empty string when it is absent or zero. -/
theorem append_followers_cells (dt : PyDateTime) (topic : String) (leads : List Lead)
    (hne : leads ≠ []) :
    ∃ rows, (append_leads_to_sheet dt topic leads).2 = some rows ∧
      List.Forall₂ (fun l row => row.get? 6 = some (.str (followersCellSpec l.Followers)))
        leads rows := by
  have hE : leads.isEmpty = false := by
    cases leads with
    | nil => exact absurd rfl hne
    | cons a l => rfl
  refine ⟨leads.map (rowOfLead (utcnowStr dt) topic), by simp [append_leads_to_sheet, hE], ?_⟩
  rw [List.forall₂_map_right_iff, List.forall₂_same]
  intro l _
  show some (JValue.str (followersCell l.Followers)) = _
  rw [followersCell_eq_spec]

/-- C2 witness: the amended statement at a concrete batch. -/
theorem append_followers_cells_witness :
    ∃ rows, (append_leads_to_sheet ⟨2025, 1, 2, 3, 4, 5⟩ "t"
        [⟨.str "", "", .str "", .str "", some 7⟩]).2 = some rows ∧
      List.Forall₂ (fun l row => row.get? 6 = some (.str (followersCellSpec l.Followers)))
        [(⟨.str "", "", .str "", .str "", some 7⟩ : Lead)] rows :=
  append_followers_cells ⟨2025, 1, 2, 3, 4, 5⟩ "t" _ (List.cons_ne_nil _ _)

/-- C9: whenever `parse_followers` returns normally with a present value, that
value is a nonnegative integer. -/
theorem parse_followers_nonneg (text : Option String) (n : Int)
    (h : parse_followers text = .ok (some n)) : 0 ≤ n := by
  cases text with
  | none => simp [parse_followers] at h
  | some s =>
    simp only [parse_followers] at h
    unfold parseFollowersStr at h
    split at h
    · split at h
      · simp at h
      · simp only [Except.ok.injEq, Option.some.injEq] at h
        subst h
        exact Int.natCast_nonneg _
    · split at h
      · simp only [Except.ok.injEq, Option.some.injEq] at h
        subst h
        exact Int.natCast_nonneg _
      · simp at h

/-- C9 witness: the theorem applied at a concrete parse. -/
theorem parse_followers_nonneg_witness : (0 : Int) ≤ 1234 :=
  parse_followers_nonneg (some "1234") 1234 (by decide)

/-- A container without a recognized results list contributes an empty organic
list. -/
theorem getOrganic_eq_nil_of_no_results (c : JValue) (h : containerHasResults c = false) :
    getOrganic c = [] := by
  unfold containerHasResults at h
  unfold getOrganic
  cases hu : unwrapItem c <;> (rw [hu] at h; try rfl)
  case obj fields =>
    change (resultsListOf fields).isSome = false at h
    change (resultsListOf fields).getD [] = []
    cases hr : resultsListOf fields <;> (rw [hr] at h; simp_all)

/-- Removing a keyless container anywhere in the input does not change the
result of `parse_apify_items`. -/
theorem parse_apify_items_skip (xs : List JValue) (c : JValue) (ys : List JValue)
    (h : containerHasResults c = false) :
    parse_apify_items (xs ++ c :: ys) = parse_apify_items (xs ++ ys) := by
  induction xs with
  | nil =>
    show parse_apify_items (c :: ys) = parse_apify_items ys
    simp only [parse_apify_items]
    rw [getOrganic_eq_nil_of_no_results c h]
    cases hp : parse_apify_items ys <;> simp [hp, mapLeads]
  | cons x xs ih =>
    show parse_apify_items (x :: (xs ++ c :: ys)) = parse_apify_items (x :: (xs ++ ys))
    simp only [parse_apify_items]
    rw [ih]

/-- `parse_apify_items` flattens: on a concatenation of inputs that both
succeed, the output is the concatenation of the outputs, in order. -/
theorem parse_apify_items_append (xs ys : List JValue) (ls ls' : List Lead)
    (hx : parse_apify_items xs = .ok ls) (hy : parse_apify_items ys = .ok ls') :
    parse_apify_items (xs ++ ys) = .ok (ls ++ ls') := by
  induction xs generalizing ls with
  | nil =>
    simp only [parse_apify_items] at hx
    cases hx
    simpa using hy
  | cons x xs ih =>
    rw [show x :: xs ++ ys = x :: (xs ++ ys) from rfl]
    simp only [parse_apify_items] at hx ⊢
    revert hx
    cases hm : mapLeads (getOrganic x) with
    | error e => intro hx; simp at hx
    | ok l1 =>
      cases hp : parse_apify_items xs with
      | error e => intro hx; simp at hx
      | ok l2 =>
        intro hx
        simp only [Except.ok.injEq] at hx
        rw [ih l2 hp]
        simp [← hx]

/-- A successful `mapLeads` run relates entries to output leads one-to-one and
in order: the k-th lead is exactly the parse of the k-th entry. -/
theorem mapLeads_forall₂ (rs : List JValue) (ls : List Lead) (h : mapLeads rs = .ok ls) :
    List.Forall₂ (fun r l => leadOfEntry r = .ok l) rs ls := by
  induction rs generalizing ls with
  | nil =>
    simp only [mapLeads] at h
    cases h
    exact List.Forall₂.nil
  | cons r rs ih =>
    simp only [mapLeads] at h
    revert h
    cases he : leadOfEntry r with
    | error e => intro h; simp at h
    | ok l =>
      cases hm : mapLeads rs with
      | error e => intro h; simp at h
      | ok ls2 =>
        intro h
        simp at h
        subst h
        exact List.Forall₂.cons he (ih ls2 hm)

/-- A successful `parse_apify_items` run relates the flattened entries (in
container order, then entry order) to the output leads one-to-one and in
order. -/
theorem parse_apify_items_entries (items : List JValue) (ls : List Lead)
    (h : parse_apify_items items = .ok ls) :
    List.Forall₂ (fun r l => leadOfEntry r = .ok l) (items.map getOrganic).flatten ls := by
  induction items generalizing ls with
  | nil =>
    simp only [parse_apify_items] at h
    cases h
    exact List.Forall₂.nil
  | cons item rest ih =>
    simp only [parse_apify_items] at h
    revert h
    cases hm : mapLeads (getOrganic item) with
    | error e => intro h; simp at h
    | ok l1 =>
      cases hp : parse_apify_items rest with
      | error e => intro h; simp at h
      | ok l2 =>
        intro h
        simp at h
        subst h
        rw [List.map_cons, List.flatten_cons]
        exact List.rel_append (mapLeads_forall₂ _ _ hm) (ih l2 hp)

/-- C7: a container whose (possibly `json`-wrapped) payload has neither an
`organicResults` list nor a `results` list contributes zero leads without
raising; removing it anywhere leaves the result unchanged; the output is the
in-order concatenation across containers; and the output leads correspond
one-to-one, in order and without deduplication, to the input entries
flattened across containers in their given order, each lead being the parse
of its entry. -/
theorem parse_apify_items_spec :
    (∀ c, containerHasResults c = false → parse_apify_items [c] = .ok []) ∧
    (∀ (xs : List JValue) (c : JValue) (ys : List JValue),
      containerHasResults c = false →
      parse_apify_items (xs ++ c :: ys) = parse_apify_items (xs ++ ys)) ∧
    (∀ (xs ys : List JValue) (ls ls' : List Lead),
      parse_apify_items xs = .ok ls → parse_apify_items ys = .ok ls' →
      parse_apify_items (xs ++ ys) = .ok (ls ++ ls')) ∧
    (∀ (items : List JValue) (ls : List Lead),
      parse_apify_items items = .ok ls →
      List.Forall₂ (fun r l => leadOfEntry r = .ok l) (items.map getOrganic).flatten ls) := by
  refine ⟨fun c h => ?_, parse_apify_items_skip, parse_apify_items_append,
    parse_apify_items_entries⟩
  have := parse_apify_items_skip [] c [] h
  simpa using this

/-- C7 witness: the four conjuncts applied at concrete inputs. -/
theorem parse_apify_items_spec_witness :
    parse_apify_items [.obj [("foo", .null)]] = .ok [] ∧
    parse_apify_items [.obj [("organicResults", .arr [.obj []])], .obj [("foo", .null)]] =
      parse_apify_items [.obj [("organicResults", .arr [.obj []])]] ∧
    parse_apify_items
        [.obj [("organicResults", .arr [.obj []])], .obj [("results", .arr [.obj []])]] =
      .ok [⟨.str "", "", .str "", .str "", none⟩, ⟨.str "", "", .str "", .str "", none⟩] ∧
    List.Forall₂ (fun r l => leadOfEntry r = .ok l)
      (([JValue.obj [("organicResults", JValue.arr [JValue.obj []])]].map getOrganic).flatten)
      [⟨.str "", "", .str "", .str "", none⟩] :=
  ⟨parse_apify_items_spec.1 (JValue.obj [("foo", JValue.null)]) rfl,
   parse_apify_items_spec.2.1 [JValue.obj [("organicResults", JValue.arr [JValue.obj []])]]
     (JValue.obj [("foo", JValue.null)]) [] rfl,
   parse_apify_items_spec.2.2.1 [JValue.obj [("organicResults", JValue.arr [JValue.obj []])]]
     [JValue.obj [("results", JValue.arr [JValue.obj []])]]
     [⟨.str "", "", .str "", .str "", none⟩] [⟨.str "", "", .str "", .str "", none⟩] rfl rfl,
   parse_apify_items_spec.2.2.2 [JValue.obj [("organicResults", JValue.arr [JValue.obj []])]]
     [⟨.str "", "", .str "", .str "", none⟩] rfl⟩

theorem dropWhile_append_eq {α : Type} (p : α → Bool) (l1 l2 : List α) :
    List.dropWhile p (l1 ++ l2) =
      if (List.dropWhile p l1).isEmpty then List.dropWhile p l2
      else List.dropWhile p l1 ++ l2 := by
  induction l1 with
  | nil => simp
  | cons a l1 ih =>
    by_cases hpa : p a
    · simpa [List.dropWhile_cons, hpa] using ih
    · simp [List.dropWhile_cons, hpa]

/-- After a header write, the first 7 trimmed cells of row 1 are the header:
the written header cells are all nonempty, so trailing-empty trimming never
reaches into them. -/
theorem row_values1_update (ws : Worksheet) :
    (row_values1 (updateHeaderRange ws)).take HEADERS.length = HEADERS := by
  show ((HEADERS ++ ws.row1.drop HEADERS.length).reverse.dropWhile
    (· = "")).reverse.take HEADERS.length = HEADERS
  rw [List.reverse_append, dropWhile_append_eq]
  by_cases hh : (List.dropWhile (· = "") (ws.row1.drop HEADERS.length).reverse).isEmpty
  · rw [if_pos hh]
    decide
  · rw [if_neg hh, List.reverse_append, List.reverse_reverse]
    exact List.take_left HEADERS _

/-- If the looked-up tab's first row already carries the header on its first 7
trimmed cells, `ensure_sheet_tab` performs no write and returns the worksheet
unchanged. -/
theorem ensure_no_write (sheet : Spreadsheet) (tab : String) (ws : Worksheet)
    (hlk : lookupTab sheet tab = some ws)
    (hdr : (row_values1 ws).take HEADERS.length = HEADERS) :
    ensure_sheet_tab sheet tab = (ws, false) := by
  have hgt : getTab sheet tab = ws := by unfold getTab; rw [hlk]
  have hne : row_values1 ws ≠ [] := by
    intro h0
    rw [h0] at hdr
    simp [HEADERS] at hdr
  unfold ensure_sheet_tab
  rw [hgt, if_neg (by simp [hne, hdr])]

/-- C5: header provisioning is idempotent: a first row already carrying the
7-cell header is not rewritten, and a second `ensure_sheet_tab` right after a
first one performs no write and leaves the worksheet identical. -/
theorem ensure_sheet_tab_idempotent :
    (∀ (sheet : Spreadsheet) (tab : String) (ws : Worksheet),
      lookupTab sheet tab = some ws →
      (row_values1 ws).take HEADERS.length = HEADERS →
      ensure_sheet_tab sheet tab = (ws, false)) ∧
    (∀ (sheet : Spreadsheet) (tab : String),
      ensure_sheet_tab (setTab sheet tab (ensure_sheet_tab sheet tab).1) tab =
        ((ensure_sheet_tab sheet tab).1, false)) := by
  refine ⟨ensure_no_write, fun sheet tab => ?_⟩
  have hlk : lookupTab (setTab sheet tab (ensure_sheet_tab sheet tab).1) tab =
      some (ensure_sheet_tab sheet tab).1 := by
    simp [setTab, lookupTab]
  refine ensure_no_write _ _ _ hlk ?_
  unfold ensure_sheet_tab
  split
  · exact row_values1_update _
  · case isFalse hcond =>
    push_neg at hcond
    exact hcond.2

/-- C5 witness: a tab whose first row is exactly the header is returned
unchanged with no write. -/
theorem ensure_sheet_tab_idempotent_witness :
    ensure_sheet_tab [("Leads", ⟨HEADERS, []⟩)] "Leads" = (⟨HEADERS, []⟩, false) ∧
    ensure_sheet_tab (setTab [] "Leads" (ensure_sheet_tab [] "Leads").1) "Leads" =
      ((ensure_sheet_tab [] "Leads").1, false) :=
  ⟨ensure_sheet_tab_idempotent.1 [("Leads", ⟨HEADERS, []⟩)] "Leads" ⟨HEADERS, []⟩
      (by decide) (by decide),
   ensure_sheet_tab_idempotent.2 [] "Leads"⟩

theorem digit_char_isDigit (d : Nat) (h : d ≤ 9) :
    (Char.ofNat ('0'.toNat + d)).isDigit = true := by
  interval_cases d <;> decide

theorem decDigitsAux_all_digits (fuel : Nat) :
    ∀ (n : Nat), ∀ c ∈ decDigitsAux fuel n, c.isDigit = true := by
  induction fuel with
  | zero => intro n c hc; simp [decDigitsAux] at hc
  | succ fuel ih =>
    intro n c hc
    simp only [decDigitsAux] at hc
    rcases Nat.lt_or_ge n 10 with hlt | hge
    · rw [if_pos hlt] at hc
      simp at hc
      subst hc
      exact digit_char_isDigit n (by omega)
    · rw [if_neg (by omega)] at hc
      rw [List.mem_append] at hc
      rcases hc with hc | hc
      · exact ih _ c hc
      · simp at hc
        subst hc
        exact digit_char_isDigit _ (by omega)

theorem decDigitsAux_length_le (fuel : Nat) :
    ∀ (n k : Nat), 1 ≤ k → n < 10 ^ k → (decDigitsAux fuel n).length ≤ k := by
  induction fuel with
  | zero => intro n k hk _; simp [decDigitsAux]
  | succ fuel ih =>
    intro n k hk hn
    simp only [decDigitsAux]
    rcases Nat.lt_or_ge n 10 with hlt | hge
    · rw [if_pos hlt]
      simpa using hk
    · rw [if_neg (by omega)]
      have hk2 : 2 ≤ k := by
        rcases k with _ | _ | k
        · omega
        · exfalso
          rw [pow_one] at hn
          omega
        · omega
      have hpow : (10 : Nat) ^ k = 10 ^ (k - 1) * 10 := by
        conv_lhs => rw [show k = (k - 1) + 1 by omega]
        rw [pow_succ]
      have hdiv : n / 10 < 10 ^ (k - 1) := by
        rw [Nat.div_lt_iff_lt_mul (by omega : 0 < 10), ← hpow]
        exact hn
      have hrec := ih (n / 10) (k - 1) (by omega) hdiv
      simp only [List.length_append, List.length_cons, List.length_nil]
      omega

theorem decDigits_length_le (n k : Nat) (hk : 1 ≤ k) (hn : n < 10 ^ k) :
    (decDigits n).length ≤ k :=
  decDigitsAux_length_le _ n k hk hn

theorem padDec_length (w n : Nat) (h : (decDigits n).length ≤ w) :
    (padDec w n).length = w := by
  simp [padDec]
  omega

theorem padDec_all_digits (w n : Nat) : ∀ c ∈ padDec w n, c.isDigit = true := by
  intro c hc
  simp only [padDec, List.mem_append] at hc
  rcases hc with hc | hc
  · rw [List.eq_of_mem_replicate hc]
    decide
  · exact decDigitsAux_all_digits _ _ c hc

/-- The string the code builds at line 195 has the spec's
`YYYY-MM-DD HH:MM:SS UTC` shape for every valid datetime. -/
theorem tsFormat_utcnow (dt : PyDateTime) (h : validDT dt) : tsFormat (utcnowStr dt) := by
  obtain ⟨h1, h2, h3, h4, h5, h6, h7, h8, h9⟩ := h
  have e100 : (10 : Nat) ^ 2 = 100 := by norm_num
  have e10000 : (10 : Nat) ^ 4 = 10000 := by norm_num
  have ly : (decDigits dt.year).length ≤ 4 := decDigits_length_le _ 4 (by omega) (by omega)
  have lmo : (decDigits dt.month).length ≤ 2 := decDigits_length_le _ 2 (by omega) (by omega)
  have ld : (decDigits dt.day).length ≤ 2 := decDigits_length_le _ 2 (by omega) (by omega)
  have lh : (decDigits dt.hour).length ≤ 2 := decDigits_length_le _ 2 (by omega) (by omega)
  have lmi : (decDigits dt.minute).length ≤ 2 := decDigits_length_le _ 2 (by omega) (by omega)
  have ls2 : (decDigits dt.second).length ≤ 2 := decDigits_length_le _ 2 (by omega) (by omega)
  refine ⟨padDec 4 dt.year, padDec 2 dt.month, padDec 2 dt.day, padDec 2 dt.hour,
    padDec 2 dt.minute, padDec 2 dt.second, ?_, padDec_length _ _ ly, padDec_length _ _ lmo,
    padDec_length _ _ ld, padDec_length _ _ lh, padDec_length _ _ lmi,
    padDec_length _ _ ls2, ?_⟩
  · rw [utcnowStr, String.data_append]
    show isoformatSeconds dt ++ [' ', 'U', 'T', 'C'] = _
    simp [isoformatSeconds, List.append_assoc]
  · intro c hc
    simp only [List.mem_append] at hc
    rcases hc with ((((hc | hc) | hc) | hc) | hc) | hc <;> exact padDec_all_digits _ _ c hc

/-- C4: on a non-empty batch, `append_leads_to_sheet` returns the input
length, issues one batch write whose rows all share a single timestamp of
shape `YYYY-MM-DD HH:MM:SS UTC` captured once for the batch, and every row's
Topic column equals the supplied topic. -/
theorem append_nonempty_rows (dt : PyDateTime) (topic : String) (leads : List Lead)
    (hne : leads ≠ []) (hdt : validDT dt) :
    (append_leads_to_sheet dt topic leads).1 = leads.length ∧
    ∃ ts rows, (append_leads_to_sheet dt topic leads).2 = some rows ∧
      tsFormat ts ∧ rows.length = leads.length ∧
      ∀ row ∈ rows, row.get? 0 = some (.str ts) ∧ row.get? 1 = some (.str topic) := by
  have hE : leads.isEmpty = false := by
    cases leads with
    | nil => exact absurd rfl hne
    | cons a l => rfl
  refine ⟨by simp [append_leads_to_sheet, hE], utcnowStr dt,
    leads.map (rowOfLead (utcnowStr dt) topic), by simp [append_leads_to_sheet, hE],
    tsFormat_utcnow dt hdt, by simp, ?_⟩
  intro row hrow
  rcases List.mem_map.1 hrow with ⟨l, _, rfl⟩
  exact ⟨rfl, rfl⟩

/-- C4 witness: the theorem applied at a concrete batch and datetime. -/
theorem append_nonempty_rows_witness :
    (append_leads_to_sheet ⟨2025, 1, 2, 3, 4, 5⟩ "cardano"
        [⟨.str "n", "u", .str "h", .str "d", some 5⟩]).1 =
      [(⟨.str "n", "u", .str "h", .str "d", some 5⟩ : Lead)].length ∧
    ∃ ts rows, (append_leads_to_sheet ⟨2025, 1, 2, 3, 4, 5⟩ "cardano"
        [⟨.str "n", "u", .str "h", .str "d", some 5⟩]).2 = some rows ∧
      tsFormat ts ∧ rows.length = [(⟨.str "n", "u", .str "h", .str "d", some 5⟩ : Lead)].length ∧
      ∀ row ∈ rows, row.get? 0 = some (.str ts) ∧ row.get? 1 = some (.str "cardano") :=
  append_nonempty_rows ⟨2025, 1, 2, 3, 4, 5⟩ "cardano"
    [⟨.str "n", "u", .str "h", .str "d", some 5⟩] (List.cons_ne_nil _ _) (by decide)

theorem hitAt_cons_succ (c : Char) (rest : List Char) (i : Nat) :
    hitAt (c :: rest) (i + 1) ↔ hitAt rest i := Iff.rfl

theorem no_hit_of_short (cs : List Char) (hlen : cs.length < 6) (i : Nat) : ¬ hitAt cs i := by
  rintro ⟨hm, _⟩
  unfold markerAt at hm
  have hl : (((cs.drop i).take 6).map Char.toLower).length = 6 := by
    rw [hm]
    rfl
  simp only [List.length_map, List.length_take, List.length_drop] at hl
  omega

theorem scanXcom_no_hit (cs : List Char) (h : ∀ i, ¬ hitAt cs i) : scanXcom cs = [] := by
  induction cs with
  | nil => rfl
  | cons c rest ih =>
    have hshift : ∀ i, ¬ hitAt rest i := fun i hi => h (i + 1) ((hitAt_cons_succ c rest i).2 hi)
    unfold scanXcom
    by_cases hm : (List.take 6 (c :: rest)).map Char.toLower = xcomMarker
    · rw [if_pos hm]
      have hseg : (List.drop 6 (c :: rest)).takeWhile notSegStop = [] := by
        by_contra hne
        exact h 0 ⟨hm, hne⟩
      rw [hseg]
      simpa using ih hshift
    · rw [if_neg hm]
      exact ih hshift

theorem scanXcom_hit (cs : List Char) : ∀ (i : Nat), hitAt cs i →
    (∀ j, j < i → ¬ hitAt cs j) → scanXcom cs = segAt cs i := by
  induction cs with
  | nil =>
    intro i hi _
    exact absurd hi (no_hit_of_short [] (by simp) i)
  | cons c rest ih =>
    intro i hi hmin
    match i with
    | 0 =>
      rcases hi with ⟨hm, hseg⟩
      have hm' : (List.take 6 (c :: rest)).map Char.toLower = xcomMarker := hm
      unfold scanXcom
      rw [if_pos hm']
      have hne : ¬ ((List.drop 6 (c :: rest)).takeWhile notSegStop).isEmpty = true := by
        rw [List.isEmpty_iff]
        exact hseg
      rw [if_neg hne]
      rfl
    | i + 1 =>
      have hrest : hitAt rest i := (hitAt_cons_succ c rest i).1 hi
      have hminr : ∀ j, j < i → ¬ hitAt rest j := fun j hj hjh =>
        hmin (j + 1) (by omega) ((hitAt_cons_succ c rest j).2 hjh)
      have h0 : ¬ hitAt (c :: rest) 0 := hmin 0 (by omega)
      have hsegshift : segAt (c :: rest) (i + 1) = segAt rest i := rfl
      unfold scanXcom
      by_cases hm : (List.take 6 (c :: rest)).map Char.toLower = xcomMarker
      · rw [if_pos hm]
        have hseg : (List.drop 6 (c :: rest)).takeWhile notSegStop = [] := by
          by_contra hne
          exact h0 ⟨hm, hne⟩
        rw [hseg]
        rw [hsegshift]
        simpa using ih i hrest hminr
      · rw [if_neg hm]
        rw [hsegshift]
        exact ih i hrest hminr

/-- C8: `extract_username_from_url` on the given concrete URLs; in general it
never raises, returns `""` exactly when the regex has no match, and otherwise
returns the greedy first path segment after the leftmost `x.com/` marker
verbatim. -/
theorem extract_username_spec :
    extract_username_from_url "https://x.com/someuser" = "someuser" ∧
    extract_username_from_url "" = "" ∧
    extract_username_from_url "not a url" = "" ∧
    (∀ url : String, (∀ i, ¬ hitAt url.data i) → extract_username_from_url url = "") ∧
    (∀ (url : String) (i : Nat), hitAt url.data i → (∀ j, j < i → ¬ hitAt url.data j) →
      extract_username_from_url url = String.mk (segAt url.data i)) := by
  refine ⟨by decide, by decide, by decide, ?_, ?_⟩
  · intro url h
    unfold extract_username_from_url
    split
    · rfl
    · rw [scanXcom_no_hit url.data h]
  · intro url i hi hmin
    unfold extract_username_from_url
    split
    · case isTrue hurl =>
      subst hurl
      exact absurd hi (no_hit_of_short _ (by simp) i)
    · rw [scanXcom_hit url.data i hi hmin]

/-- C8 witness: the general conjuncts applied at concrete URLs. -/
theorem extract_username_spec_witness :
    extract_username_from_url "https://x.com/someuser" =
      String.mk (segAt "https://x.com/someuser".data 8) ∧
    extract_username_from_url "abc" = "" :=
  ⟨extract_username_spec.2.2.2.2 "https://x.com/someuser" 8 (by decide)
      (by decide),
   extract_username_spec.2.2.2.1 "abc" (no_hit_of_short "abc".data (by decide))⟩
